import Mathlib

/-!
Verification development for the jwt-test repository's refresh-token core.

The development shallowly embeds:
- the token codec (`verifyToken` in `express_jwt/auth(db)/config.mjs`),
- the refresh-token repository over the DynamoDB table
  (`createRefreshToken`, `getRefreshToken`, `updateRefreshTokenLastUsed`,
  `revokeRefreshToken`, `revokeAllUserTokens`, `cleanExpiredTokens`,
  `limitUserTokens` in `helpers/middlewares.mjs` / the refresh-token repository),
- the `authenticateRequest` middleware, and
- the `POST /auth/refresh` route of the express server.

Conventions of the embedding:
- The DynamoDB table is a list of items keyed by `token_hash`; besides the
  key, every attribute is optional, as DynamoDB items are schemaless and an
  upserting `UpdateCommand` can create items holding only the key and the
  set attribute.
- ISO-8601 timestamp strings are modelled as integer milliseconds since the
  epoch; lexicographic comparison of the stored strings agrees with numeric
  comparison of the instants they denote.
- Each `await dbClient.send(...)` may either succeed or fail; the success of
  each send is an explicit boolean parameter, so that the `catch` behaviour
  of every repository function is part of the embedding.
- The external `jsonwebtoken` library's `jwt.verify` is abstracted as a
  value describing what it does on the given token and secret: return a
  payload, or throw one of its three documented error classes, or throw
  some other error.
- The SHA-256 digest used for `token_hash` is abstracted as a parameter
  `sha256 : String → String`; concrete executions instantiate it with a
  simple concrete function, since only which strings collide matters.
-/

namespace JwtTest

/-- JWT payload `{sub, email}` as signed by `generateAccessToken` and
`generateRefreshToken`. -/
structure Claims where
  sub : String
  email : String
deriving DecidableEq

/-- The error object embedded in the result of `verifyToken`: `errorName`,
`errorMessage`, and, depending on the error class, `expiredAt` or `date`. -/
structure ErrObj where
  errorName : String
  errorMessage : String
  expiredAt : Option Int
  date : Option String
deriving DecidableEq

/-- The non-null JS object returned by `verifyToken`: a `valid` flag together
with an optional `payload` and an optional `error` field. -/
structure TokenOutcome where
  valid : Bool
  payload : Option Claims
  error : Option ErrObj
deriving DecidableEq

/-- Behaviour of the external `jwt.verify(token, secret)` call: it either
returns the decoded payload or throws a `TokenExpiredError`,
`JsonWebTokenError`, `NotBeforeError`, or some other error. `nowIso` stands
for `new Date().toISOString()` used in the catch branch. -/
inductive JwtVerify where
  | ok (payload : Claims)
  | throwExpired (msg : String) (expiredAt : Int)
  | throwJwtError (msg : String) (nowIso : String)
  | throwNotBefore (msg : String) (date : String)
  | throwOther
deriving DecidableEq

/-- `verifyToken` from `express_jwt/auth/config.mjs`: wraps `jwt.verify` and
classifies the thrown error. A `TokenExpiredError` yields
`{valid: true, error: {...expiredAt}}` with no payload; a `JsonWebTokenError`
or `NotBeforeError` yields `{valid: false, error: {...}}`; any other error
falls through to `return null`. -/
def verifyToken : JwtVerify → Option TokenOutcome
  | .ok p => some ⟨true, some p, none⟩
  | .throwExpired msg t => some ⟨true, none, some ⟨"TokenExpiredError", msg, some t, none⟩⟩
  | .throwJwtError msg nowIso => some ⟨false, none, some ⟨"JsonWebTokenError", msg, none, some nowIso⟩⟩
  | .throwNotBefore msg d => some ⟨false, none, some ⟨"NotBeforeError", msg, none, some d⟩⟩
  | .throwOther => none

/-- The three-way outcome taxonomy as the spec words it: the result is a
non-null object that is either Valid carrying the decoded claims, or
ExpiredButWellFormed carrying both the decoded claims and the expiry instant,
or Invalid carrying a reason. (Spec-side definition, for comparison with
`verifyToken`.) -/
def specThreeWayOutcome (r : Option TokenOutcome) : Prop :=
  ∃ o, r = some o ∧
    ((o.valid = true ∧ o.error = none ∧ ∃ c, o.payload = some c) ∨
     (o.valid = true ∧ (∃ c, o.payload = some c) ∧
        ∃ e, o.error = some e ∧ ∃ t, e.expiredAt = some t) ∨
     (o.valid = false ∧ ∃ e, o.error = some e))

/-- Errors that escape a function in the JS code: a failed store call, or a
`TypeError` from dereferencing a field of `null`/`undefined`. -/
inductive JsError where
  | storeError
  | typeError
deriving DecidableEq

/-- Model of `String.prototype.startsWith`, defined over the character list
so that it evaluates by kernel reduction. -/
def jsStartsWith (s pre : String) : Bool :=
  pre.data.isPrefixOf s.data

/-- Model of `String.prototype.substring(n)`, defined over the character
list so that it evaluates by kernel reduction. -/
def jsSubstring (s : String) (n : Nat) : String :=
  ⟨s.data.drop n⟩

/-- Outcome of the `authenticateRequest` middleware: an HTTP response with a
status and optional error body, or a call to `next()` with `req.user` set. -/
inductive AuthOutcome where
  | respond (status : Nat) (body : Option ErrObj)
  | callNext (user : Option Claims)
deriving DecidableEq

/-- The body of the 401 sent when no bearer header is present. -/
def accessTokenRequiredErr : ErrObj :=
  ⟨"AccessTokenRequired", "Access token is required", none, none⟩

/-- `authenticateRequest` from `helpers/middlewares.mjs`: reads the
Authorization header, calls `verifyToken`, and branches on
`result.valid === true && result.error`, then `!result || result.valid === false`.
Evaluating `result.valid` when `verifyToken` returned `null` throws a
`TypeError` that escapes the middleware (there is no try/catch), modelled as
`.error .typeError`; consequently the `!result` test on the next line can
never be reached with a null `result`. `jwtV` gives the behaviour of
`jwt.verify` on each token string under the access-token secret. -/
def authenticateRequest (header : Option String) (jwtV : String → JwtVerify) :
    Except JsError AuthOutcome :=
  match header with
  | none => .ok (.respond 401 (some accessTokenRequiredErr))
  | some h =>
    if !(jsStartsWith h "Bearer ") then .ok (.respond 401 (some accessTokenRequiredErr))
    else
      match verifyToken (jwtV (jsSubstring h 7)) with
      | none => .error .typeError
      | some result =>
        if result.valid && result.error.isSome then .ok (.respond 401 result.error)
        else if result.valid == false then .ok (.respond 403 result.error)
        else .ok (.callNext result.payload)

/-- An item of the `HQ_RefreshTokens` DynamoDB table. The partition key is
`token_hash`; every other attribute is optional because the table is
schemaless and an upserting `UpdateCommand` can create an item holding only
the key and the attribute it sets. Timestamps are integer milliseconds. -/
structure Item where
  token_hash : String
  id : Option String
  user_id : Option String
  expires_at : Option Int
  ttl : Option Int
  revoked : Option Bool
  created_at : Option Int
  last_used_at : Option Int
deriving DecidableEq

deriving instance DecidableEq for Except

/-- JS truthiness of `item.revoked` (an absent attribute is falsy). -/
def revokedTruthy (it : Item) : Bool :=
  it.revoked == some true

/-- Point read by partition key (`GetCommand`). -/
def getItem (db : List Item) (h : String) : Option Item :=
  db.find? (fun it => it.token_hash == h)

/-- Whether the table holds an item with the given key. -/
def hasKey (db : List Item) (h : String) : Bool :=
  db.any (fun it => it.token_hash == h)

/-- `PutCommand`: replaces the whole item with the same key if one exists,
otherwise inserts the new item. -/
def putItem (db : List Item) (it : Item) : List Item :=
  if hasKey db it.token_hash then
    db.map (fun o => if o.token_hash == it.token_hash then it else o)
  else db ++ [it]

/-- The item created when an `UpdateCommand` with `SET revoked = true` hits a
missing key: DynamoDB upserts an item holding only the key and the set
attribute. -/
def revokedStub (h : String) : Item :=
  ⟨h, none, none, none, none, some true, none, none⟩

/-- `UpdateCommand` with `SET revoked = true` on one key: updates the item in
place if present, otherwise upserts a stub item. -/
def updateRevoked (db : List Item) (h : String) : List Item :=
  if hasKey db h then
    db.map (fun o => if o.token_hash == h then { o with revoked := some true } else o)
  else db ++ [revokedStub h]

/-- `UpdateCommand` with `SET last_used_at = timestamp` on one key (again an
upsert on a missing key). -/
def updateLastUsed (db : List Item) (h : String) (now : Int) : List Item :=
  if hasKey db h then
    db.map (fun o => if o.token_hash == h then { o with last_used_at := some now } else o)
  else db ++ [⟨h, none, none, none, none, none, none, some now⟩]

/-- Fan-out of independent `SET revoked = true` updates for a list of keys
taken from previously queried items (each key is present in the table). -/
def revokeHashes (db : List Item) (hs : List String) : List Item :=
  db.map (fun o => if hs.contains o.token_hash then { o with revoked := some true } else o)

/-- The `newToken` object built by `createRefreshToken`: the hashed raw
token as key, `revoked: false`, `expires_at` seven days from `now`, and the
TTL in epoch seconds. `newId` stands for `crypto.randomUUID()`. -/
def freshRecord (sha256 : String → String) (newId : String) (now : Int)
    (userId token : String) : Item :=
  let expiresAt := now + 7 * 24 * 60 * 60 * 1000
  { token_hash := sha256 token, id := some newId, user_id := some userId,
    expires_at := some expiresAt, ttl := some (Int.fdiv expiresAt 1000),
    revoked := some false, created_at := some now, last_used_at := some now }

/-- `createRefreshToken(userId, token)`: hashes the raw token, builds the new
record, and writes it with an unconditional `PutCommand`. `ok` is whether
the send succeeds; on failure the error is logged and rethrown. -/
def createRefreshToken (sha256 : String → String) (db : List Item) (ok : Bool)
    (newId : String) (now : Int) (userId token : String) :
    List Item × Except JsError Item :=
  if ok then
    (putItem db (freshRecord sha256 newId now userId token),
      .ok (freshRecord sha256 newId now userId token))
  else (db, .error .storeError)

/-- `getRefreshToken(token)`: hashes the raw token and does a point read; the
result is `null` when the item is absent or its `revoked` attribute is
truthy, and otherwise the item itself. A failed send is rethrown. Note that
the stored `expires_at` is never consulted here. -/
def getRefreshToken (sha256 : String → String) (db : List Item) (ok : Bool)
    (token : String) : Except JsError (Option Item) :=
  if ok then
    match getItem db (sha256 token) with
    | none => .ok none
    | some tokenData =>
      if revokedTruthy tokenData then .ok none else .ok (some tokenData)
  else .error .storeError

/-- `updateRefreshTokenLastUsed(token)`: an `UpdateCommand` setting
`last_used_at`, returning the updated attributes. A failed send is logged
and RETHROWN — this function does not fail silently. -/
def updateRefreshTokenLastUsed (sha256 : String → String) (db : List Item) (ok : Bool)
    (now : Int) (token : String) : List Item × Except JsError (Option Item) :=
  if ok then
    (updateLastUsed db (sha256 token) now,
      .ok (getItem (updateLastUsed db (sha256 token) now) (sha256 token)))
  else (db, .error .storeError)

/-- `revokeRefreshToken(token)`: an unconditional `UpdateCommand` setting
`revoked = true` on the hashed key, returning `true`; a failed send is
caught, logged, and turned into a `false` return — the error is swallowed.
There is no `ConditionExpression`, so the update never distinguishes an
already-revoked or unknown token from a live one. -/
def revokeRefreshToken (sha256 : String → String) (db : List Item) (ok : Bool)
    (token : String) : List Item × Bool :=
  if ok then (updateRevoked db (sha256 token), true) else (db, false)

/-- The GSI query of `revokeAllUserTokens`: all items whose `user_id`
attribute equals the given user, with no filter expression. -/
def queryUserTokens (db : List Item) (userId : String) : List Item :=
  db.filter (fun it => it.user_id == some userId)

/-- The keys `revokeAllUserTokens` fans updates out for: the user's queried
items that are not already revoked (`tokens.filter(t => !t.revoked)`). -/
def toRevokeHashes (db : List Item) (userId : String) : List String :=
  ((queryUserTokens db userId).filter (fun t => !revokedTruthy t)).map Item.token_hash

/-- `revokeAllUserTokens(userId)`: queries every item of the user, fans out a
revoke update for each not-yet-revoked one, and awaits them all. Updates
that succeed take effect even when others fail; if any fails, `Promise.all`
rejects and the error is rethrown. On full success the function returns the
length of the QUERY result — the user's total record count, revoked records
included — not the number of records it revoked. `queryOk` and `updOk` give
the success of the query send and of each update send (by key). -/
def revokeAllUserTokens (db : List Item) (queryOk : Bool) (updOk : String → Bool)
    (userId : String) : List Item × Except JsError Nat :=
  if queryOk then
    if (toRevokeHashes db userId).all updOk then
      (revokeHashes db ((toRevokeHashes db userId).filter updOk),
        .ok (queryUserTokens db userId).length)
    else
      (revokeHashes db ((toRevokeHashes db userId).filter updOk), .error .storeError)
  else (db, .error .storeError)

/-- Scan filter of `cleanExpiredTokens`: `expires_at < :now` (an item missing
the attribute does not satisfy the filter). -/
def isExpired (it : Item) (now : Int) : Bool :=
  match it.expires_at with
  | some e => e < now
  | none => false

/-- The keys of the items the scan of `cleanExpiredTokens` returns. -/
def expiredHashes (db : List Item) (now : Int) : List String :=
  (db.filter (fun it => isExpired it now)).map Item.token_hash

/-- `cleanExpiredTokens()`: scans for items with `expires_at < now` and
deletes each, returning how many it deleted; any failed send is rethrown.
The scan pagination loop is modelled as a single page. -/
def cleanExpiredTokens (db : List Item) (scanOk : Bool) (delOk : String → Bool)
    (now : Int) : List Item × Except JsError Nat :=
  if scanOk then
    if (expiredHashes db now).all delOk then
      (db.filter (fun it => !((expiredHashes db now).filter delOk).contains it.token_hash),
        .ok (expiredHashes db now).length)
    else
      (db.filter (fun it => !((expiredHashes db now).filter delOk).contains it.token_hash),
        .error .storeError)
  else (db, .error .storeError)

/-- Sort key of `limitUserTokens`: the comparator
`(a, b) => new Date(b.created_at) - new Date(a.created_at)` compares the
`created_at` instants. Items missing the attribute never pass the
`revoked = false` query filter in any state produced by this repository's
own writes; the model orders them by treating the missing instant as 0. -/
def createdKey (it : Item) : Int :=
  it.created_at.getD 0

/-- The ordering imposed by the comparator: `a` no older than `b`. -/
def newerEq (a b : Item) : Prop :=
  createdKey b ≤ createdKey a

instance : DecidableRel newerEq :=
  fun a b => Int.decLe _ _

instance : IsTotal Item newerEq :=
  ⟨fun a b => le_total (createdKey b) (createdKey a)⟩

instance : IsTrans Item newerEq :=
  ⟨fun _ _ _ h1 h2 => le_trans h2 h1⟩

/-- `tokens.sort((a, b) => new Date(b.created_at) - new Date(a.created_at))`:
a stable sort putting the newest item first, modelled by a stable insertion
sort (JS `Array.prototype.sort` is stable). -/
def sortNewestFirst (l : List Item) : List Item :=
  l.insertionSort newerEq

/-- `Array.prototype.slice(start)` for a possibly negative integer start:
a negative index counts from the end of the array. -/
def jsSlice (l : List Item) (start : Int) : List Item :=
  if 0 ≤ start then l.drop start.toNat
  else l.drop (l.length - (-start).toNat)

/-- The GSI query of `limitUserTokens`: items of the user whose `revoked`
attribute is present and equal to `false` (`FilterExpression revoked = false`). -/
def queryActiveUserTokens (db : List Item) (userId : String) : List Item :=
  db.filter (fun it => it.user_id == some userId && it.revoked == some false)

/-- The user's non-revoked items, sorted newest first, as `limitUserTokens`
computes them. -/
def sortedActive (db : List Item) (userId : String) : List Item :=
  sortNewestFirst (queryActiveUserTokens db userId)

/-- The keys of `tokensToRevoke = tokens.slice(maxTokens - 1)`. -/
def limitSliceHashes (db : List Item) (userId : String) (maxTokens : Int) : List String :=
  (jsSlice (sortedActive db userId) (maxTokens - 1)).map Item.token_hash

/-- `limitUserTokens(userId, maxTokens)`: queries the user's non-revoked
items, sorts them newest first, and when their number reaches `maxTokens`
revokes everything from position `maxTokens - 1` onward, returning how many
items that slice held; otherwise it revokes nothing and returns 0. Fanned-out
updates that succeed take effect even when others fail, and any failure is
rethrown. -/
def limitUserTokens (db : List Item) (queryOk : Bool) (updOk : String → Bool)
    (userId : String) (maxTokens : Int) : List Item × Except JsError Nat :=
  if queryOk then
    if maxTokens ≤ ((sortedActive db userId).length : Int) then
      if (limitSliceHashes db userId maxTokens).all updOk then
        (revokeHashes db ((limitSliceHashes db userId maxTokens).filter updOk),
          .ok (limitSliceHashes db userId maxTokens).length)
      else
        (revokeHashes db ((limitSliceHashes db userId maxTokens).filter updOk),
          .error .storeError)
    else (db, .ok 0)
  else (db, .error .storeError)

/-- The key of a record holds, somewhere in the table, an item that is
revoked: the state predicate used to express the revocation theorems. -/
def itemRevokedIn (db : List Item) (h : String) : Prop :=
  ∃ jt, getItem db h = some jt ∧ jt.revoked = some true

/-- Unfolding of `revokedTruthy` to a propositional equation. -/
theorem revokedTruthy_iff (it : Item) :
    revokedTruthy it = true ↔ it.revoked = some true := by
  simp [revokedTruthy]

/-- A point read through a hash-preserving map rewrites to a map over the
point read. -/
theorem getItem_map (db : List Item) (f : Item → Item)
    (hf : ∀ o, (f o).token_hash = o.token_hash) (h : String) :
    getItem (db.map f) h = (getItem db h).map f := by
  unfold getItem
  rw [List.find?_map]
  have hp : ((fun it : Item => it.token_hash == h) ∘ f)
      = (fun it : Item => it.token_hash == h) := by
    funext o
    simp [Function.comp, hf]
  rw [hp]

/-- A point read that succeeds on a prefix also succeeds on the whole table. -/
theorem getItem_append_left (db l : List Item) (h : String) (it : Item)
    (hit : getItem db h = some it) : getItem (db ++ l) h = some it := by
  unfold getItem at *
  rw [List.find?_append, hit]
  rfl

/-- In a table with pairwise-distinct keys, two members sharing a key are the
same item. -/
theorem eq_of_mem_of_hash_eq (db : List Item)
    (hwf : (db.map Item.token_hash).Nodup) (it jt : Item)
    (hit : it ∈ db) (hjt : jt ∈ db) (hh : it.token_hash = jt.token_hash) :
    it = jt :=
  List.inj_on_of_nodup_map hwf hit hjt hh

/-- In a table with pairwise-distinct keys, the point read at a member's key
returns that member. -/
theorem getItem_of_mem (db : List Item)
    (hwf : (db.map Item.token_hash).Nodup) (it : Item) (hmem : it ∈ db) :
    getItem db it.token_hash = some it := by
  have hsome : (getItem db it.token_hash).isSome = true := by
    unfold getItem
    rw [List.find?_isSome]
    exact ⟨it, hmem, by simp⟩
  obtain ⟨jt, hjt⟩ := Option.isSome_iff_exists.mp hsome
  have hjmem : jt ∈ db := List.mem_of_find?_eq_some hjt
  have hjh : jt.token_hash = it.token_hash := by
    have := List.find?_some hjt
    simpa using this
  rw [hjt, eq_of_mem_of_hash_eq db hwf jt it hjmem hmem hjh]

/-- A found item is a member of the table and carries the queried key. -/
theorem mem_of_getItem (db : List Item) (h : String) (it : Item)
    (hit : getItem db h = some it) : it ∈ db ∧ it.token_hash = h := by
  refine ⟨List.mem_of_find?_eq_some hit, ?_⟩
  have := List.find?_some hit
  simpa using this

/-- The keyed-presence test agrees with the point read. -/
theorem hasKey_true_iff (db : List Item) (h : String) :
    hasKey db h = true ↔ ∃ it ∈ db, it.token_hash = h := by
  simp [hasKey, List.any_eq_true]

/-- An absent key reads back as `none`. -/
theorem getItem_eq_none_iff (db : List Item) (h : String) :
    getItem db h = none ↔ ∀ it ∈ db, it.token_hash ≠ h := by
  simp [getItem, List.find?_eq_none]

/-- A key found by the point read passes the presence test. -/
theorem hasKey_of_getItem (db : List Item) (h : String) (it : Item)
    (hit : getItem db h = some it) : hasKey db h = true := by
  obtain ⟨hmem, hh⟩ := mem_of_getItem db h it hit
  exact (hasKey_true_iff db h).mpr ⟨it, hmem, hh⟩

/-- A key absent from the table fails the presence test. -/
theorem hasKey_eq_false (db : List Item) (h : String)
    (hnone : getItem db h = none) : hasKey db h = false := by
  rw [Bool.eq_false_iff]
  intro hk
  obtain ⟨it, hmem, hh⟩ := (hasKey_true_iff db h).mp hk
  exact absurd hh ((getItem_eq_none_iff db h).mp hnone it hmem)

/-- A hash-preserving map preserves `itemRevokedIn` at the key of any member
whose image keeps the revoked flag. -/
theorem itemRevokedIn_map (db : List Item)
    (hwf : (db.map Item.token_hash).Nodup) (f : Item → Item)
    (hf : ∀ o, (f o).token_hash = o.token_hash)
    (it : Item) (hmem : it ∈ db) (hfrev : (f it).revoked = some true) :
    itemRevokedIn (db.map f) it.token_hash := by
  refine ⟨f it, ?_, hfrev⟩
  rw [getItem_map db f hf, getItem_of_mem db hwf it hmem]
  rfl

/-- A revoked member stays revoked in the unchanged table. -/
theorem itemRevokedIn_self (db : List Item)
    (hwf : (db.map Item.token_hash).Nodup)
    (it : Item) (hmem : it ∈ db) (hrev : it.revoked = some true) :
    itemRevokedIn db it.token_hash :=
  ⟨it, getItem_of_mem db hwf it hmem, hrev⟩

/-- Setting `revoked` to `true` on an already-revoked item is the identity. -/
theorem setRevoked_eq_self (x : Item) (hx : x.revoked = some true) :
    ({ x with revoked := some true } : Item) = x := by
  cases x
  simp_all

/-- A revoked member stays revoked when the table is extended on the right. -/
theorem itemRevokedIn_append (db l : List Item)
    (hwf : (db.map Item.token_hash).Nodup)
    (it : Item) (hmem : it ∈ db) (hrev : it.revoked = some true) :
    itemRevokedIn (db ++ l) it.token_hash :=
  ⟨it, getItem_append_left db l _ it (getItem_of_mem db hwf it hmem), hrev⟩

/-- C3 counterexample: the claim's three-outcome taxonomy fails on the code.
When `jwt.verify` throws a `TokenExpiredError`, `verifyToken` returns
`{valid: true, error: {...}}` with no `payload` field, so the result carries
no decoded claims and matches none of the three spec outcomes; and when
`jwt.verify` throws an unclassified error, `verifyToken` returns `null`,
which again is none of the three outcomes. -/
theorem verifyToken_expired_lacks_claims :
    ¬ specThreeWayOutcome (verifyToken (.throwExpired "jwt expired" 77))
    ∧ verifyToken .throwOther = none
    ∧ ¬ specThreeWayOutcome (verifyToken .throwOther) := by
  refine ⟨?_, rfl, ?_⟩
  · simp [specThreeWayOutcome, verifyToken]
  · simp [specThreeWayOutcome, verifyToken]

/-- C3 amended: `verifyToken` has exactly four result shapes, not three —
Valid `{valid: true, payload, no error}`; Expired `{valid: true, no payload,
error with expiredAt}` (the decoded claims are NOT carried); Invalid
`{valid: false, no payload, error}` for bad-signature/malformed/not-yet-valid
errors; and `null` for any other thrown error. Every `JsonWebTokenError` or
`NotBeforeError` (covering malformed and not-yet-valid inputs) yields the
Invalid shape. -/
theorem verifyToken_four_shapes :
    ∀ b : JwtVerify,
      (∃ c, verifyToken b = some ⟨true, some c, none⟩) ∨
      (∃ n m t, verifyToken b = some ⟨true, none, some ⟨n, m, some t, none⟩⟩) ∨
      (∃ n m d, verifyToken b = some ⟨false, none, some ⟨n, m, none, some d⟩⟩) ∨
      verifyToken b = none := by
  intro b
  cases b with
  | ok p => exact .inl ⟨p, rfl⟩
  | throwExpired msg t => exact .inr (.inl ⟨_, _, _, rfl⟩)
  | throwJwtError msg d => exact .inr (.inr (.inl ⟨_, _, _, rfl⟩))
  | throwNotBefore msg d => exact .inr (.inr (.inl ⟨_, _, _, rfl⟩))
  | throwOther => exact .inr (.inr (.inr rfl))

/-- C10: in `authenticateRequest` the expression `result.valid` is evaluated
before any null test on `result`, so whenever `verifyToken` returns `null`
(an error that is none of the three jsonwebtoken classes), the middleware
throws a `TypeError` instead of producing a 401/403 response; the `!result`
test in the invalid-token branch can never act as a guard. -/
theorem authenticateRequest_null_throws (hs : String) (jwtV : String → JwtVerify)
    (hbearer : jsStartsWith hs "Bearer " = true)
    (hnull : verifyToken (jwtV (jsSubstring hs 7)) = none) :
    authenticateRequest (some hs) jwtV = .error .typeError := by
  simp [authenticateRequest, hbearer, hnull]

/-- C10 witness: a concrete header and a `jwt.verify` behaviour that throws an
unclassified error make `authenticateRequest` throw a `TypeError`. -/
theorem authenticateRequest_null_throws_witness :
    (jsStartsWith "Bearer xyz" "Bearer " = true) ∧
    (verifyToken ((fun _ : String => JwtVerify.throwOther) (jsSubstring "Bearer xyz" 7)) = none) ∧
    authenticateRequest (some "Bearer xyz") (fun _ => JwtVerify.throwOther) = .error .typeError :=
  ⟨by decide, rfl,
    authenticateRequest_null_throws "Bearer xyz" (fun _ => JwtVerify.throwOther)
      (by decide) rfl⟩

/-- A record with `revoked: false` whose `expires_at` lies in the past, as
stored in the table. -/
def expiredLiveItem : Item :=
  { token_hash := "h1", id := some "i1", user_id := some "u1",
    expires_at := some 5, ttl := some 0, revoked := some false,
    created_at := some 0, last_used_at := some 0 }

/-- C2 counterexample: `getRefreshToken` does not consult the stored
`expires_at` — a record with `revoked: false` whose `expires_at` (5) is
before now (10) is returned as found, not treated as absent. -/
theorem getRefreshToken_returns_expired_record :
    expiredLiveItem.revoked = some false
    ∧ expiredLiveItem.expires_at = some 5 ∧ (5 : Int) < 10
    ∧ getRefreshToken (fun s => s) [expiredLiveItem] true "h1" = .ok (some expiredLiveItem) := by
  refine ⟨rfl, rfl, by decide, rfl⟩

/-- C2 amended: `getRefreshToken` returns none exactly when the record is
absent or revoked; the stored `expires_at` is never consulted (stripping it
from every record changes nothing about which lookups yield none — the
expiry test is performed instead by the refresh route on the record this
function returns). -/
theorem getRefreshToken_absent_or_revoked_only (sha256 : String → String)
    (db : List Item) (tok : String) :
    (getRefreshToken sha256 db true tok = .ok none ↔
      getItem db (sha256 tok) = none ∨
        ∃ it, getItem db (sha256 tok) = some it ∧ it.revoked = some true)
    ∧ (∀ it, getRefreshToken sha256 db true tok = .ok (some it) ↔
        getItem db (sha256 tok) = some it ∧ ¬ it.revoked = some true)
    ∧ (getRefreshToken sha256 db true tok = .ok none ↔
        getRefreshToken sha256 (db.map (fun it => { it with expires_at := none })) true tok
          = .ok none) := by
  have hmap := getItem_map db (fun it => { it with expires_at := none })
    (fun _ => rfl) (sha256 tok)
  cases hg : getItem db (sha256 tok) with
  | none =>
    rw [hg] at hmap
    refine ⟨?_, ?_, ?_⟩ <;> simp [getRefreshToken, hg, hmap]
  | some it =>
    rw [hg] at hmap
    by_cases hr : it.revoked = some true
    · refine ⟨?_, ?_, ?_⟩ <;>
        simp [getRefreshToken, hg, hmap, revokedTruthy, hr]
    · refine ⟨?_, ?_, ?_⟩ <;>
        simp [getRefreshToken, hg, hmap, revokedTruthy, hr]

/-- C2 amended witness: on a table holding one expired, non-revoked record,
the characterization applies and the lookup indeed returns the record. -/
theorem getRefreshToken_absent_or_revoked_only_witness :
    (getRefreshToken (fun s => s) [expiredLiveItem] true "h1" = .ok (some expiredLiveItem) ↔
      getItem [expiredLiveItem] "h1" = some expiredLiveItem
        ∧ ¬ expiredLiveItem.revoked = some true) :=
  ((getRefreshToken_absent_or_revoked_only (fun s => s) [expiredLiveItem] "h1").2.1
    expiredLiveItem)

/-- A record already revoked, as stored in the table. -/
def revokedItem : Item :=
  { token_hash := "h2", id := some "i2", user_id := some "u2",
    expires_at := some 999, ttl := some 0, revoked := some true,
    created_at := some 0, last_used_at := some 0 }

/-- C7 counterexample: revoking an already-revoked token returns `true`
(the claim says `false`), and revoking an unknown token also returns `true`
while growing the table by an upserted stub record (the claim says the
store is left unchanged). -/
theorem revokeRefreshToken_returns_true_cases :
    revokeRefreshToken (fun s => s) [revokedItem] true "h2" = ([revokedItem], true)
    ∧ revokeRefreshToken (fun s => s) [] true "hx" = ([revokedStub "hx"], true) := by
  constructor
  · have : ({ revokedItem with revoked := some true } : Item) = revokedItem := rfl
    simp [revokeRefreshToken, updateRevoked, hasKey, revokedItem]
  · rfl

/-- C7 amended: `revokeRefreshToken` returns `true` whenever the store call
succeeds, regardless of the token's prior state; on an already-revoked token
the table is unchanged, on an unknown token a stub item with `revoked: true`
is upserted, and `false` is returned only when the store call itself fails
(in which case the table is also unchanged). -/
theorem revokeRefreshToken_spec (sha256 : String → String) (db : List Item)
    (tok : String) (hwf : (db.map Item.token_hash).Nodup) :
    (revokeRefreshToken sha256 db true tok).2 = true
    ∧ (∀ it, getItem db (sha256 tok) = some it → it.revoked = some true →
        (revokeRefreshToken sha256 db true tok).1 = db)
    ∧ (getItem db (sha256 tok) = none →
        (revokeRefreshToken sha256 db true tok).1 = db ++ [revokedStub (sha256 tok)])
    ∧ revokeRefreshToken sha256 db false tok = (db, false) := by
  refine ⟨rfl, ?_, ?_, rfl⟩
  · intro it hfind hrev
    obtain ⟨hmem, hh⟩ := mem_of_getItem db _ it hfind
    have hk : hasKey db (sha256 tok) = true := hasKey_of_getItem db _ it hfind
    have hmapid : db.map
        (fun o => if o.token_hash == sha256 tok then { o with revoked := some true } else o)
        = db := by
      conv_rhs => rw [← List.map_id db]
      apply List.map_congr_left
      intro o hodb
      show (if o.token_hash == sha256 tok then { o with revoked := some true } else o) = id o
      by_cases ho : o.token_hash = sha256 tok
      · have hoit : o = it := eq_of_mem_of_hash_eq db hwf o it hodb hmem (ho.trans hh.symm)
        subst hoit
        rw [if_pos (by simp [ho])]
        exact setRevoked_eq_self o hrev
      · rw [if_neg (by simp [ho])]
        rfl
    show updateRevoked db (sha256 tok) = db
    unfold updateRevoked
    rw [if_pos hk, hmapid]
  · intro hnone
    have hk : hasKey db (sha256 tok) = false := hasKey_eq_false db _ hnone
    show updateRevoked db (sha256 tok) = db ++ [revokedStub (sha256 tok)]
    unfold updateRevoked
    rw [if_neg (by simp [hk])]

/-- C7 amended witness: instantiated on a one-record table holding an
already-revoked record, the call returns `true` and leaves the table as-is,
and a failed store call returns `false`. -/
theorem revokeRefreshToken_spec_witness :
    ((revokeRefreshToken (fun s => s) [revokedItem] true "h2").2 = true)
    ∧ ((revokeRefreshToken (fun s => s) [revokedItem] true "h2").1 = [revokedItem])
    ∧ (revokeRefreshToken (fun s => s) [revokedItem] false "h2" = ([revokedItem], false)) := by
  have hspec := revokeRefreshToken_spec (fun s => s) [revokedItem] "h2" (by decide)
  exact ⟨hspec.1, hspec.2.1 revokedItem (by decide) (by decide), hspec.2.2.2⟩

/-- C8 counterexample: a backing-store failure inside `revokeRefreshToken` is
caught and converted into a normal-looking `false` return instead of being
propagated as a typed outcome or a raised error. -/
theorem revokeRefreshToken_swallows_store_failure :
    revokeRefreshToken (fun s => s) [revokedStub "hz"] false "hz"
      = ([revokedStub "hz"], false) := rfl

/-- C8 amended: every embedded store operation rethrows a backing-store
failure — including `updateRefreshTokenLastUsed` (touchLastUsed), which does
NOT fail silently — with the single exception of `revokeRefreshToken`, which
catches the failure and returns `false` as a normal value. -/
theorem error_propagation_spec (sha256 : String → String) (db : List Item)
    (newId : String) (now m : Int) (userId tok : String) (updOk : String → Bool) :
    (createRefreshToken sha256 db false newId now userId tok).2 = .error .storeError
    ∧ getRefreshToken sha256 db false tok = .error .storeError
    ∧ (updateRefreshTokenLastUsed sha256 db false now tok).2 = .error .storeError
    ∧ (revokeAllUserTokens db false updOk userId).2 = .error .storeError
    ∧ (limitUserTokens db false updOk userId m).2 = .error .storeError
    ∧ (cleanExpiredTokens db false updOk now).2 = .error .storeError
    ∧ revokeRefreshToken sha256 db false tok = (db, false) :=
  ⟨rfl, rfl, rfl, rfl, rfl, rfl, rfl⟩

/-- C5 counterexample: `createRefreshToken` writes with an unconditional
`PutCommand`, so creating a record whose token hash equals an existing
revoked record's key replaces that record wholesale and resets its
`revoked` flag to `false`. -/
theorem createRefreshToken_resets_revoked :
    revokedItem.revoked = some true
    ∧ (getItem (createRefreshToken (fun s => s) [revokedItem] true "i9" 50 "u2" "h2").1
         "h2").map Item.revoked = some (some false) := by
  refine ⟨rfl, by decide⟩

/-- C5 amended: the `revoked` flag is monotonic under every update-based
operation — `revokeRefreshToken`, `revokeAllUserTokens`, `limitUserTokens`,
and `updateRefreshTokenLastUsed` never turn a revoked record back into a
live one — and under `createRefreshToken` only provided the fresh token's
hash differs from the revoked record's key: the unconditional `PutCommand`
otherwise replaces the record, as the counterexample shows. -/
theorem revoked_flag_monotone (sha256 : String → String) (db : List Item)
    (hwf : (db.map Item.token_hash).Nodup)
    (it : Item) (hmem : it ∈ db) (hrev : it.revoked = some true)
    (ok queryOk : Bool) (tokR tokT tokC newId userId : String)
    (now m : Int) (updOk : String → Bool) :
    itemRevokedIn (revokeRefreshToken sha256 db ok tokR).1 it.token_hash
    ∧ itemRevokedIn (revokeAllUserTokens db queryOk updOk userId).1 it.token_hash
    ∧ itemRevokedIn (limitUserTokens db queryOk updOk userId m).1 it.token_hash
    ∧ itemRevokedIn (updateRefreshTokenLastUsed sha256 db ok now tokT).1 it.token_hash
    ∧ (sha256 tokC ≠ it.token_hash →
        itemRevokedIn (createRefreshToken sha256 db ok newId now userId tokC).1 it.token_hash) := by
  have hself := itemRevokedIn_self db hwf it hmem hrev
  have hrevoke : itemRevokedIn (updateRevoked db (sha256 tokR)) it.token_hash := by
    unfold updateRevoked
    split
    · apply itemRevokedIn_map db hwf _ ?_ it hmem ?_
      · intro o
        split <;> rfl
      · split <;> simp [hrev]
    · exact itemRevokedIn_append db _ hwf it hmem hrev
  have hrevhashes : ∀ hs, itemRevokedIn (revokeHashes db hs) it.token_hash := by
    intro hs
    apply itemRevokedIn_map db hwf _ ?_ it hmem ?_
    · intro o
      split <;> rfl
    · split <;> simp [hrev]
  refine ⟨?_, ?_, ?_, ?_, ?_⟩
  · cases ok with
    | false => exact hself
    | true => exact hrevoke
  · cases queryOk with
    | false => exact hself
    | true =>
      unfold revokeAllUserTokens
      split
      · split <;> exact hrevhashes _
      · simp_all
  · cases queryOk with
    | false => exact hself
    | true =>
      unfold limitUserTokens
      split
      · split
        · split <;> exact hrevhashes _
        · exact hself
      · simp_all
  · cases ok with
    | false => exact hself
    | true =>
      show itemRevokedIn (updateLastUsed db (sha256 tokT) now) it.token_hash
      unfold updateLastUsed
      split
      · apply itemRevokedIn_map db hwf _ ?_ it hmem ?_
        · intro o
          split <;> rfl
        · split <;> simp [hrev]
      · exact itemRevokedIn_append db _ hwf it hmem hrev
  · intro hne
    cases ok with
    | false => exact hself
    | true =>
      show itemRevokedIn
        (putItem db (freshRecord sha256 newId now userId tokC)) it.token_hash
      unfold putItem
      split
      · apply itemRevokedIn_map db hwf _ ?_ it hmem ?_
        · intro o
          split
          · rename_i heq
            simpa [freshRecord] using (eq_of_beq heq).symm
          · rfl
        · have hcond : (it.token_hash
              == (freshRecord sha256 newId now userId tokC).token_hash) = false := by
            simp [freshRecord]
            exact fun hcontra => hne hcontra.symm
          simp [hcond, hrev]
      · exact itemRevokedIn_append db _ hwf it hmem hrev

/-- For a member of a well-formed table, being revoked at its key in the
unchanged table means exactly that its own flag is set. -/
theorem itemRevokedIn_iff_self (db : List Item)
    (hwf : (db.map Item.token_hash).Nodup) (it : Item) (hmem : it ∈ db) :
    itemRevokedIn db it.token_hash ↔ it.revoked = some true := by
  unfold itemRevokedIn
  rw [getItem_of_mem db hwf it hmem]
  simp

/-- After a fan-out of revoke updates over the keys `hs`, a member of a
well-formed table is revoked at its key exactly when it already was or its
key is among `hs`. -/
theorem itemRevokedIn_revokeHashes (db : List Item)
    (hwf : (db.map Item.token_hash).Nodup) (hs : List String)
    (it : Item) (hmem : it ∈ db) :
    itemRevokedIn (revokeHashes db hs) it.token_hash ↔
      (it.revoked = some true ∨ hs.contains it.token_hash = true) := by
  have hmap : getItem (revokeHashes db hs) it.token_hash
      = some (if hs.contains it.token_hash then { it with revoked := some true } else it) := by
    unfold revokeHashes
    rw [getItem_map db _ fun o => by split <;> rfl, getItem_of_mem db hwf it hmem]
    rfl
  unfold itemRevokedIn
  rw [hmap]
  by_cases hc : hs.contains it.token_hash = true
  · rw [if_pos hc]
    constructor
    · intro _
      exact Or.inr hc
    · intro _
      exact ⟨{ it with revoked := some true }, rfl, rfl⟩
  · rw [if_neg hc]
    constructor
    · rintro ⟨jt, hjt, hjr⟩
      injection hjt with hji
      subst hji
      exact Or.inl hjr
    · rintro (h | h)
      · exact ⟨it, rfl, h⟩
      · exact absurd h hc

/-- Membership of a member's key among the keys `revokeAllUserTokens` fans
out and whose update succeeds, characterized by the member's own fields. -/
theorem mem_toRevoke_iff (db : List Item)
    (hwf : (db.map Item.token_hash).Nodup) (u : String) (updOk : String → Bool)
    (it : Item) (hmem : it ∈ db) :
    ((toRevokeHashes db u).filter updOk).contains it.token_hash = true ↔
      (it.user_id = some u ∧ ¬ it.revoked = some true ∧ updOk it.token_hash = true) := by
  simp only [toRevokeHashes, queryUserTokens]
  constructor
  · intro hc
    have hmemf : it.token_hash
        ∈ (((db.filter (fun o => o.user_id == some u)).filter
            (fun t => !revokedTruthy t)).map Item.token_hash).filter updOk := by
      simpa using hc
    obtain ⟨hmem1, hupd⟩ := List.mem_filter.mp hmemf
    obtain ⟨jt, hjt, hjh⟩ := List.mem_map.mp hmem1
    obtain ⟨hjq, hjrev⟩ := List.mem_filter.mp hjt
    obtain ⟨hjdb, hju⟩ := List.mem_filter.mp hjq
    have hji : jt = it := eq_of_mem_of_hash_eq db hwf jt it hjdb hmem hjh
    subst hji
    exact ⟨by simpa using hju, by simpa [revokedTruthy] using hjrev, hupd⟩
  · rintro ⟨hu, hrev, hupd⟩
    have hmemf : it.token_hash
        ∈ (((db.filter (fun o => o.user_id == some u)).filter
            (fun t => !revokedTruthy t)).map Item.token_hash).filter updOk := by
      refine List.mem_filter.mpr ⟨?_, hupd⟩
      refine List.mem_map.mpr ⟨it, ?_, rfl⟩
      refine List.mem_filter.mpr ⟨?_, by simpa [revokedTruthy] using hrev⟩
      exact List.mem_filter.mpr ⟨hmem, by simpa using hu⟩
    simpa using hmemf

/-- A live record of one user, as stored in the table. -/
def liveItemU : Item :=
  { token_hash := "ha", id := some "ia", user_id := some "u4",
    expires_at := some 999, ttl := some 0, revoked := some false,
    created_at := some 1, last_used_at := some 1 }

/-- An already-revoked record of the same user. -/
def revokedItemU : Item :=
  { token_hash := "hb", id := some "ib", user_id := some "u4",
    expires_at := some 999, ttl := some 0, revoked := some true,
    created_at := some 2, last_used_at := some 2 }

/-- C4 counterexample: with one live and one already-revoked record for the
user and every update succeeding, `revokeAllUserTokens` revokes exactly one
record (the live one) yet returns 2, the query's total — the returned count
is not the count of records it revoked. -/
theorem revokeAllUserTokens_count_mismatch :
    (revokeAllUserTokens [liveItemU, revokedItemU] true (fun _ => true) "u4").2 = .ok 2
    ∧ ((revokeAllUserTokens [liveItemU, revokedItemU] true (fun _ => true) "u4").1.filter
          revokedTruthy).length
        = ([liveItemU, revokedItemU].filter revokedTruthy).length + 1 := by
  exact ⟨by decide, by decide⟩

/-- C4 amended: `revokeAllUserTokens` queries ALL the user's records via the
secondary index (already-revoked ones included) and, on full success,
returns that total — not the number of records it revoked; when some
per-record updates fail, the successful revocations persist in the table but
no count at all is returned: the function rethrows the failure. A record
ends up revoked exactly when it already was, or when it belongs to the user,
was not yet revoked, and its own update succeeded. -/
theorem revokeAllUserTokens_spec (db : List Item) (updOk : String → Bool) (u : String)
    (hwf : (db.map Item.token_hash).Nodup) :
    ((toRevokeHashes db u).all updOk = true →
      (revokeAllUserTokens db true updOk u).2 = .ok (queryUserTokens db u).length)
    ∧ ((toRevokeHashes db u).all updOk = false →
      (revokeAllUserTokens db true updOk u).2 = .error .storeError)
    ∧ (∀ it ∈ db,
        itemRevokedIn (revokeAllUserTokens db true updOk u).1 it.token_hash ↔
          (it.revoked = some true ∨
            (it.user_id = some u ∧ ¬ it.revoked = some true ∧ updOk it.token_hash = true))) := by
  have h1 : (revokeAllUserTokens db true updOk u).1
      = revokeHashes db ((toRevokeHashes db u).filter updOk) := by
    unfold revokeAllUserTokens
    split
    · split <;> rfl
    · simp_all
  refine ⟨?_, ?_, ?_⟩
  · intro hall
    simp [revokeAllUserTokens, hall]
  · intro hall
    simp [revokeAllUserTokens, hall]
  · intro it hmem
    rw [h1, itemRevokedIn_revokeHashes db hwf _ it hmem,
      mem_toRevoke_iff db hwf u updOk it hmem]

/-- C4 amended witness: the characterization applied to the two-record table
of the counterexample, with every update succeeding. -/
theorem revokeAllUserTokens_spec_witness :
    (([liveItemU, revokedItemU].map Item.token_hash).Nodup)
    ∧ (((toRevokeHashes [liveItemU, revokedItemU] "u4").all (fun _ => true) = true →
        (revokeAllUserTokens [liveItemU, revokedItemU] true (fun _ => true) "u4").2
          = .ok (queryUserTokens [liveItemU, revokedItemU] "u4").length)
      ∧ ((toRevokeHashes [liveItemU, revokedItemU] "u4").all (fun _ => true) = false →
        (revokeAllUserTokens [liveItemU, revokedItemU] true (fun _ => true) "u4").2
          = .error .storeError)
      ∧ (∀ it ∈ [liveItemU, revokedItemU],
          itemRevokedIn
              (revokeAllUserTokens [liveItemU, revokedItemU] true (fun _ => true) "u4").1
              it.token_hash ↔
            (it.revoked = some true ∨
              (it.user_id = some "u4" ∧ ¬ it.revoked = some true
                ∧ (fun _ : String => true) it.token_hash = true)))) :=
  ⟨by decide, revokeAllUserTokens_spec [liveItemU, revokedItemU] (fun _ => true) "u4" (by decide)⟩

/-- C5 amended witness: the monotonicity statement applied to a one-record
table holding a revoked record, with a fresh create whose hash differs. -/
theorem revoked_flag_monotone_witness :
    (([revokedItem].map Item.token_hash).Nodup ∧ revokedItem ∈ [revokedItem]
      ∧ revokedItem.revoked = some true)
    ∧ (itemRevokedIn (revokeRefreshToken (fun s => s) [revokedItem] true "h2").1
          revokedItem.token_hash
      ∧ itemRevokedIn (revokeAllUserTokens [revokedItem] true (fun _ => true) "u2").1
          revokedItem.token_hash
      ∧ itemRevokedIn (limitUserTokens [revokedItem] true (fun _ => true) "u2" 5).1
          revokedItem.token_hash
      ∧ itemRevokedIn (updateRefreshTokenLastUsed (fun s => s) [revokedItem] true 7 "h2").1
          revokedItem.token_hash
      ∧ ((fun s : String => s) "hc" ≠ revokedItem.token_hash →
          itemRevokedIn
            (createRefreshToken (fun s => s) [revokedItem] true "i9" 7 "u2" "hc").1
            revokedItem.token_hash)) :=
  ⟨⟨by decide, by decide, rfl⟩,
    revoked_flag_monotone (fun s => s) [revokedItem] (by decide) revokedItem (by decide) rfl
      true true "h2" "h2" "hc" "i9" "u2" 7 5 (fun _ => true)⟩

/-- C6: `limitUserTokens` orders the user's non-revoked records newest-first
by `created_at`; when their number is at or above `maxTokens` it revokes
exactly the records from position `maxTokens - 1` of that order onward and
returns their number — the active count minus `maxTokens - 1` — and
otherwise it revokes nothing and returns 0. -/
theorem limitUserTokens_spec (db : List Item) (u : String) (m : Int)
    (hwf : (db.map Item.token_hash).Nodup) (hm : 1 ≤ m) :
    List.Sorted newerEq (sortedActive db u)
    ∧ (sortedActive db u).Perm (queryActiveUserTokens db u)
    ∧ ((limitUserTokens db true (fun _ => true) u m).2
        = if m ≤ ((queryActiveUserTokens db u).length : Int)
          then .ok ((queryActiveUserTokens db u).length - (m.toNat - 1))
          else .ok 0)
    ∧ (∀ it ∈ db,
        itemRevokedIn (limitUserTokens db true (fun _ => true) u m).1 it.token_hash ↔
          (it.revoked = some true ∨
            (m ≤ ((queryActiveUserTokens db u).length : Int) ∧
              it ∈ (sortedActive db u).drop (m.toNat - 1)))) := by
  have hlen : (sortedActive db u).length = (queryActiveUserTokens db u).length :=
    List.length_insertionSort newerEq _
  have hm1 : (0 : Int) ≤ m - 1 := by omega
  have hslice : jsSlice (sortedActive db u) (m - 1)
      = (sortedActive db u).drop (m.toNat - 1) := by
    unfold jsSlice
    rw [if_pos hm1]
    congr 1
    omega
  refine ⟨List.sorted_insertionSort newerEq _, List.perm_insertionSort newerEq _, ?_, ?_⟩
  · by_cases hc : m ≤ ((queryActiveUserTokens db u).length : Int)
    · have hc' : m ≤ ((sortedActive db u).length : Int) := by rw [hlen]; exact hc
      have hv : (limitUserTokens db true (fun _ => true) u m).2
          = .ok (limitSliceHashes db u m).length := by
        simp [limitUserTokens, hc']
      rw [hv, if_pos hc]
      congr 1
      unfold limitSliceHashes
      rw [hslice, List.length_map, List.length_drop, hlen]
    · have hc' : ¬ m ≤ ((sortedActive db u).length : Int) := by rw [hlen]; exact hc
      have hv : (limitUserTokens db true (fun _ => true) u m).2 = .ok 0 := by
        simp [limitUserTokens, hc']
      rw [hv, if_neg hc]
  · intro it hmem
    by_cases hc : m ≤ ((queryActiveUserTokens db u).length : Int)
    · have hc' : m ≤ ((sortedActive db u).length : Int) := by rw [hlen]; exact hc
      have h1 : (limitUserTokens db true (fun _ => true) u m).1
          = revokeHashes db (limitSliceHashes db u m) := by
        simp [limitUserTokens, hc']
      rw [h1, itemRevokedIn_revokeHashes db hwf _ it hmem]
      have hcontains : (limitSliceHashes db u m).contains it.token_hash = true ↔
          it ∈ (sortedActive db u).drop (m.toNat - 1) := by
        unfold limitSliceHashes
        rw [hslice]
        constructor
        · intro hct
          have hmm : it.token_hash
              ∈ ((sortedActive db u).drop (m.toNat - 1)).map Item.token_hash := by
            simpa using hct
          obtain ⟨jt, hjt, hjh⟩ := List.mem_map.mp hmm
          have hjdb : jt ∈ db := by
            have h2 : jt ∈ sortedActive db u := List.drop_subset _ _ hjt
            have h3 : jt ∈ queryActiveUserTokens db u :=
              (List.perm_insertionSort newerEq _).subset h2
            exact (List.mem_filter.mp h3).1
          have hji : jt = it := eq_of_mem_of_hash_eq db hwf jt it hjdb hmem hjh
          subst hji
          exact hjt
        · intro hd
          have hmm : it.token_hash
              ∈ ((sortedActive db u).drop (m.toNat - 1)).map Item.token_hash :=
            List.mem_map.mpr ⟨it, hd, rfl⟩
          simpa using hmm
      rw [hcontains]
      constructor
      · rintro (h | h)
        · exact Or.inl h
        · exact Or.inr ⟨hc, h⟩
      · rintro (h | ⟨-, h⟩)
        · exact Or.inl h
        · exact Or.inr h
    · have hc' : ¬ m ≤ ((sortedActive db u).length : Int) := by rw [hlen]; exact hc
      have h1 : (limitUserTokens db true (fun _ => true) u m).1 = db := by
        simp [limitUserTokens, hc']
      rw [h1, itemRevokedIn_iff_self db hwf it hmem]
      constructor
      · exact Or.inl
      · rintro (h | ⟨habs, -⟩)
        · exact h
        · exact absurd habs hc

/-- An active record of the seven-record user, with the given key and
creation instant. -/
def mkActive (h : String) (c : Int) : Item :=
  { token_hash := h, id := some h, user_id := some "u6",
    expires_at := some 999, ttl := some 0, revoked := some false,
    created_at := some c, last_used_at := some c }

/-- A table with seven active records of one user, created at instants
1 through 7. -/
def dbSeven : List Item :=
  [mkActive "g1" 1, mkActive "g2" 2, mkActive "g3" 3, mkActive "g4" 4,
   mkActive "g5" 5, mkActive "g6" 6, mkActive "g7" 7]

/-- C6 witness: with seven active records and `maxTokens = 5`, the call
revokes 3 records and returns 3, leaving exactly the newest four active. -/
theorem limitUserTokens_spec_witness :
    ((dbSeven.map Item.token_hash).Nodup ∧ (1 : Int) ≤ 5)
    ∧ (List.Sorted newerEq (sortedActive dbSeven "u6")
      ∧ (sortedActive dbSeven "u6").Perm (queryActiveUserTokens dbSeven "u6")
      ∧ ((limitUserTokens dbSeven true (fun _ => true) "u6" 5).2
          = if (5 : Int) ≤ ((queryActiveUserTokens dbSeven "u6").length : Int)
            then .ok ((queryActiveUserTokens dbSeven "u6").length - ((5 : Int).toNat - 1))
            else .ok 0)
      ∧ (∀ it ∈ dbSeven,
          itemRevokedIn (limitUserTokens dbSeven true (fun _ => true) "u6" 5).1 it.token_hash ↔
            (it.revoked = some true ∨
              ((5 : Int) ≤ ((queryActiveUserTokens dbSeven "u6").length : Int) ∧
                it ∈ (sortedActive dbSeven "u6").drop ((5 : Int).toNat - 1)))))
    ∧ (limitUserTokens dbSeven true (fun _ => true) "u6" 5).2 = .ok 3
    ∧ ((limitUserTokens dbSeven true (fun _ => true) "u6" 5).1.filter
        (fun it => it.user_id == some "u6" && it.revoked == some false)).map Item.token_hash
        = ["g4", "g5", "g6", "g7"] :=
  ⟨⟨by decide, by decide⟩,
    limitUserTokens_spec dbSeven "u6" 5 (by decide) (by decide),
    by decide, by decide⟩

/-- Outcome of the `POST /auth/refresh` route: the status it answers with,
distinguished by which guard produced it. -/
inductive RouteOutcome where
  | notFound401
  | invalid403
  | invalidOrExpired403
  | revokedOrUnknown403
  | expired403
  | serverError500
  | success200
deriving DecidableEq

/-- Ambient data of one refresh request: the cookie, the behaviour of
`jwt.verify` under the refresh secret, the current time used by the
stored-record expiry comparison, and the values the external calls inside
the handler produce (`crypto.randomUUID()`, `Date.now()` at create time,
and the newly generated refresh token). -/
structure RefreshEnv where
  sha256 : String → String
  cookieToken : Option String
  jwtV : String → JwtVerify
  now : Int
  newId : String
  createNow : Int
  newRefreshToken : String

/-- A refresh request's progress, split at its store accesses: `start` is
before the `getRefreshToken` read; `mid` holds the record that read
returned and `result.payload`; `done` carries the response. -/
inductive RPhase where
  | start
  | mid (oldTok : String) (storedToken : Item) (payload : Option Claims)
  | done (out : RouteOutcome)
deriving DecidableEq

/-- One step of the `POST /auth/refresh` handler, from one store access to
the next. Phase 1: read the cookie, `verifyToken` with the refresh secret
(`null` → 403, `!result.valid` → 403), `getRefreshToken` (none → 403), the
stored `expires_at` comparison (past → 403). Phase 2: `revokeRefreshToken`
on the old token — unconditionally, with no condition expression — then
`generateAccessToken({id: payload.sub, ...})`, which throws a `TypeError`
caught into a 500 when `payload` is `undefined`, then `createRefreshToken`
for the new refresh token and a 200. Each `await dbClient.send` yields, so
concurrent requests interleave at these phase boundaries. -/
def refreshStep (env : RefreshEnv) : RPhase → List Item → RPhase × List Item
  | .start, db =>
    match env.cookieToken with
    | none => (.done .notFound401, db)
    | some oldTok =>
      match verifyToken (env.jwtV oldTok) with
      | none => (.done .invalid403, db)
      | some result =>
        if result.valid == false then (.done .invalidOrExpired403, db)
        else
          match getRefreshToken env.sha256 db true oldTok with
          | .error _ => (.done .serverError500, db)
          | .ok none => (.done .revokedOrUnknown403, db)
          | .ok (some storedToken) =>
            if isExpired storedToken env.now then (.done .expired403, db)
            else (.mid oldTok storedToken result.payload, db)
  | .mid oldTok _ payload, db =>
    match payload with
    | none => (.done .serverError500, (revokeRefreshToken env.sha256 db true oldTok).1)
    | some p =>
      (.done .success200,
        (createRefreshToken env.sha256 (revokeRefreshToken env.sha256 db true oldTok).1
          true env.newId env.createNow p.sub env.newRefreshToken).1)
  | .done o, db => (.done o, db)

/-- A single, uninterleaved run of the refresh handler: both phases in
sequence. -/
def refreshRoute (env : RefreshEnv) (db : List Item) : RPhase × List Item :=
  refreshStep env (refreshStep env .start db).1 (refreshStep env .start db).2

/-- Joint state of two concurrent refresh requests over the shared table. -/
structure RaceState where
  phaseA : RPhase
  phaseB : RPhase
  db : List Item
deriving DecidableEq

/-- Let request A (pick = true) or request B (pick = false) take its next
step on the shared table. -/
def raceStep (envA envB : RefreshEnv) (s : RaceState) (pick : Bool) : RaceState :=
  if pick then
    ⟨(refreshStep envA s.phaseA s.db).1, s.phaseB, (refreshStep envA s.phaseA s.db).2⟩
  else
    ⟨s.phaseA, (refreshStep envB s.phaseB s.db).1, (refreshStep envB s.phaseB s.db).2⟩

/-- Run two concurrent refresh requests under the given interleaving
schedule, starting from the given table. -/
def runRace (envA envB : RefreshEnv) (db : List Item) (sched : List Bool) : RaceState :=
  sched.foldl (raceStep envA envB) ⟨.start, .start, db⟩

/-- C9: when `verifyToken` classifies the refresh token as expired, its
result has `valid: true` and no `payload`, so the route's `!result.valid`
guard does not reject it; if the stored record exists, is not revoked, and
its `expires_at` is not in the past, the route then revokes the record and
crashes dereferencing `payload.sub`, answering 500 instead of one of the
taxonomy's rejections. -/
theorem refresh_expired_token_server_error (env : RefreshEnv) (db : List Item)
    (raw msg : String) (st : Item) (t : Int)
    (hcookie : env.cookieToken = some raw)
    (hexp : env.jwtV raw = .throwExpired msg t)
    (hst : getItem db (env.sha256 raw) = some st)
    (hrev : ¬ st.revoked = some true)
    (hnotpast : isExpired st env.now = false) :
    (refreshRoute env db).1 = .done .serverError500 := by
  simp [refreshRoute, refreshStep, hcookie, hexp, verifyToken, getRefreshToken,
    hst, revokedTruthy, hrev, hnotpast]

/-- The environment of the concrete expired-token refresh request. -/
def envExpired : RefreshEnv :=
  ⟨fun s => s, some "rawT", fun _ => .throwExpired "jwt expired" 42, 10, "idN", 10, "newRT"⟩

/-- The stored record matching the concrete expired-token request: present,
not revoked, `expires_at` still in the future. -/
def stillStoredItem : Item :=
  { token_hash := "rawT", id := some "i0", user_id := some "u1",
    expires_at := some 999, ttl := some 0, revoked := some false,
    created_at := some 0, last_used_at := some 0 }

/-- C9 witness: the concrete expired-but-well-formed refresh request against
its live stored record makes the route answer 500. -/
theorem refresh_expired_token_server_error_witness :
    (envExpired.cookieToken = some "rawT")
    ∧ (envExpired.jwtV "rawT" = .throwExpired "jwt expired" 42)
    ∧ (getItem [stillStoredItem] (envExpired.sha256 "rawT") = some stillStoredItem)
    ∧ (¬ stillStoredItem.revoked = some true)
    ∧ (isExpired stillStoredItem envExpired.now = false)
    ∧ (refreshRoute envExpired [stillStoredItem]).1 = .done .serverError500 :=
  ⟨rfl, rfl, by decide, by decide, rfl,
    refresh_expired_token_server_error envExpired [stillStoredItem] "rawT" "jwt expired"
      stillStoredItem 42 rfl rfl (by decide) (by decide) rfl⟩

/-- The stored record both racing refresh requests start from. -/
def raceRecord : Item :=
  { token_hash := "rawR", id := some "id0", user_id := some "u1",
    expires_at := some 1000000, ttl := some 1000, revoked := some false,
    created_at := some 0, last_used_at := some 0 }

/-- Request A of the race: a valid refresh of the stored token. -/
def raceEnvA : RefreshEnv :=
  ⟨fun s => s, some "rawR", fun _ => .ok ⟨"u1", "a@x.com"⟩, 10, "idA", 10, "newRA"⟩

/-- Request B of the race: the same raw refresh token, its own fresh outputs. -/
def raceEnvB : RefreshEnv :=
  ⟨fun s => s, some "rawR", fun _ => .ok ⟨"u1", "a@x.com"⟩, 10, "idB", 10, "newRB"⟩

/-- C1: because `revokeRefreshToken` is an unconditional update with no
condition expression, two concurrent refresh calls with the same raw token
that both pass `getRefreshToken` before either revokes (schedule A-read,
B-read, A-write, B-write) BOTH answer 200 with fresh token pairs — the
at-most-once rotation guarantee fails under the race, while the strictly
sequential schedule does make the second call fail with the
revoked-or-unknown 403. -/
theorem refresh_race_double_success :
    ((runRace raceEnvA raceEnvB [raceRecord] [true, false, true, false]).phaseA
        = .done .success200
      ∧ (runRace raceEnvA raceEnvB [raceRecord] [true, false, true, false]).phaseB
        = .done .success200)
    ∧ (runRace raceEnvA raceEnvB [raceRecord] [true, true, false, false]).phaseB
        = .done .revokedOrUnknown403 :=
  ⟨⟨by decide, by decide⟩, by decide⟩

end JwtTest
